import Mathlib

/-
Verification of the EVE HAL command-FIFO cursor protocol
(BridgetekChip/Arduino-RP2040, src/lib/eve/include/HAL.h).

The repository ships HAL.h as a declaration-only interface: every function
of the cursor manager, the register accessor and the transaction framer is
declared with documentation but carries no body in the sources given.  The
definitions below therefore embed the operations as modelled from the
specification's own description of each function, staying faithful to the
signatures and doc comments of HAL.h.
-/

namespace EveHAL

/-- Modelled from the spec: the fixed, chip-defined capacity of the command
FIFO ring buffer, in bytes.  The spec's scenarios fix it at 4096. -/
def FIFO_CAPACITY : Nat := 4096

/-- Modelled from the spec: chip register-map constant, the address of the
chip's "command write" register (REG_CMD_WRITE on FT81x-class devices). -/
def REG_CMD_WRITE_ADDR : Nat := 0x3020FC

/-- Modelled from the spec: chip register-map constant, the address of the
chip's "command read" register (REG_CMD_READ on FT81x-class devices). -/
def REG_CMD_READ_ADDR : Nat := 0x3020F8

/-- Modelled from the spec: the host-side state of the HAL together with the
observable bus effects.  `writeCmdPointer` is the internal command memory
write pointer (a 16-bit offset into the FIFO ring, HAL.h calls it the
command memory write pointer); `regCmdWrite` mirrors the chip's
REG_CMD_WRITE register, which only `HAL_WriteCmdPointer` updates; `busLog`
records every register write emitted on the bus as an (address, value)
pair, so that "performs no bus access" is expressible as `busLog` being
left unchanged. -/
structure HALState where
  writeCmdPointer : Nat
  regCmdWrite : Nat
  busLog : List (Nat × Nat)

/-- Modelled from the spec: `HAL_IncCmdPointer` has no body in HAL.h; per
its doc comment and the spec, `advanceCursor(n)` performs
`cursor = (cursor + n) mod FIFO_CAPACITY`, a pure local state update that
does not touch the bus. -/
def HAL_IncCmdPointer (commandSize : Nat) (s : HALState) : HALState :=
  { s with writeCmdPointer := (s.writeCmdPointer + commandSize) % FIFO_CAPACITY }

/-- Modelled from the spec: `HAL_GetCmdPointer` has no body in HAL.h; per
its doc comment it returns the value stored internally in the HAL, not the
value read from REG_CMD_WRITE, and performs no bus access. -/
def HAL_GetCmdPointer (s : HALState) : Nat :=
  s.writeCmdPointer

/-- Modelled from the spec: `HAL_WriteCmdPointer` has no body in HAL.h; per
its doc comment and the spec, `commit()` stores the internal write pointer
to the REG_CMD_WRITE register over the bus.  The register write is both
mirrored in `regCmdWrite` and appended to the bus log. -/
def HAL_WriteCmdPointer (s : HALState) : HALState :=
  { s with
      regCmdWrite := s.writeCmdPointer
      busLog := s.busLog ++ [(REG_CMD_WRITE_ADDR, s.writeCmdPointer)] }

/-- Modelled from the spec: `HAL_CheckCmdFreeSpace` has no body in HAL.h;
per the spec, `freeSpace()` reads the chip's live command read register
(passed here as `regCmdRead`) and computes
`available = FIFO_CAPACITY - 4 - ((write - read) mod FIFO_CAPACITY)`.
The wraparound difference `(write - read) mod FIFO_CAPACITY` is realised
over Nat as `(FIFO_CAPACITY + write - read) % FIFO_CAPACITY`, which agrees
with the integer formula whenever `read < FIFO_CAPACITY` (the read register
is an offset into the ring); the outer subtraction is Nat subtraction,
truncating at zero, which keeps the result in the range
`[0, FIFO_CAPACITY - 4]` that the spec fixes for this function. -/
def HAL_CheckCmdFreeSpace (s : HALState) (regCmdRead : Nat) : Nat :=
  FIFO_CAPACITY - 4 -
    ((FIFO_CAPACITY + s.writeCmdPointer - regCmdRead) % FIFO_CAPACITY)

/-- Modelled from the spec: the bounded poll loop inside
`HAL_WaitCmdFifoEmpty`.  `readSeq i` is the value the chip's REG_CMD_READ
register returns on the i-th poll; `fuel` is the remaining poll budget and
`polls` counts the polls already performed.  The loop stops with status 0
as soon as a poll matches the write pointer, and with status 0xff when the
budget is exhausted; alongside the status it reports how many polls were
made. -/
def waitPoll (wp : Nat) (readSeq : Nat → Nat) : Nat → Nat → Nat × Nat
  | 0, polls => (0xff, polls)
  | fuel + 1, polls =>
      if readSeq polls = wp then (0, polls + 1)
      else waitPoll wp readSeq fuel (polls + 1)

/-- Modelled from the spec: `HAL_WaitCmdFifoEmpty` has no body in HAL.h;
per its doc comment it polls REG_CMD_READ until it matches the current
command memory write pointer, returning 0 for normal completion or 0xff
for an error condition.  The spec leaves the poll bound implementation
chosen, so the bound is a parameter; `readSeq` gives the register value
observed at each poll.  The result pairs the returned status with the
number of polls performed. -/
def HAL_WaitCmdFifoEmpty (s : HALState) (readSeq : Nat → Nat) (bound : Nat) :
    Nat × Nat :=
  waitPoll s.writeCmdPointer readSeq bound 0

/-- Modelled from the spec: `HAL_EVE_Init` has no body in HAL.h; per the
spec's lifecycle section, initialisation reads back the chip's last-known
committed pointer once (`readBack`, a FIFO offset the chip keeps below
`FIFO_CAPACITY`) and seeds the local write cursor with it, so host and chip
start in agreement. -/
def HAL_EVE_Init (readBack : Nat) : HALState :=
  { writeCmdPointer := readBack, regCmdWrite := readBack, busLog := [] }

/-- One invocation of a cursor-manager operation, used to quantify over
arbitrary call sequences.  The pure observations carry the inputs they
would be given: `checkCmdFreeSpace` the live read-register value,
`waitCmdFifoEmpty` the polled register sequence and the poll bound. -/
inductive HALOp where
  | incCmdPointer (commandSize : Nat)
  | getCmdPointer
  | writeCmdPointer
  | checkCmdFreeSpace (regCmdRead : Nat)
  | waitCmdFifoEmpty (readSeq : Nat → Nat) (bound : Nat)

/-- The state transformation performed by one cursor-manager operation.
`getCmdPointer`, `checkCmdFreeSpace` and `waitCmdFifoEmpty` only observe
(the latter two via bus reads), so they leave the host state unchanged. -/
def step (op : HALOp) (s : HALState) : HALState :=
  match op with
  | HALOp.incCmdPointer n => HAL_IncCmdPointer n s
  | HALOp.getCmdPointer => s
  | HALOp.writeCmdPointer => HAL_WriteCmdPointer s
  | HALOp.checkCmdFreeSpace _ => s
  | HALOp.waitCmdFifoEmpty _ _ => s

/-- Run a sequence of cursor-manager operations from a starting state. -/
def runOps (ops : List HALOp) (s : HALState) : HALState :=
  ops.foldl (fun t op => step op t) s

/-- Whether a sequence of operations contains a `writeCmdPointer` (commit)
call. -/
def hasCommit : List HALOp → Bool
  | [] => false
  | HALOp.writeCmdPointer :: _ => true
  | _ :: rest => hasCommit rest

/-- Modelled from the spec: `HAL_SetWriteAddress` has no body in HAL.h; per
the spec's framer contract a memory write header is 3 bytes, the "write"
opcode pattern (bits 10) in the top two bits of the first byte, and the
22-bit address split most-significant byte first across the remaining
bits.  The address is masked to 22 bits while the bytes are formed. -/
def HAL_SetWriteAddress (address : Nat) : List Nat :=
  [0x80 + address / 0x10000 % 0x40, address / 0x100 % 0x100, address % 0x100]

/-- Modelled from the spec: `HAL_SetReadAddress` has no body in HAL.h; per
the spec's framer contract a memory read header uses the same address
encoding as a write header but with the distinct "read" opcode pattern
(bits 00) in the top two bits. -/
def HAL_SetReadAddress (address : Nat) : List Nat :=
  [address / 0x10000 % 0x40, address / 0x100 % 0x100, address % 0x100]

/-- Modelled from the spec: `HAL_HostCmdWrite` has no body in HAL.h; per
the spec a host command is a 2-byte frame, a command byte distinguished
from memory opcodes by its own top-bit pattern (bits 01) and a single
parameter byte. -/
def HAL_HostCmdWrite (cmd param : Nat) : List Nat :=
  [0x40 + cmd % 0x40, param % 0x100]

/-- Modelled from the spec: the little-endian byte serialisation of a
32-bit value, the chip's native order for memory payload data. -/
def leBytes32 (val32 : Nat) : List Nat :=
  [val32 % 0x100, val32 / 0x100 % 0x100, val32 / 0x10000 % 0x100,
   val32 / 0x1000000 % 0x100]

/-- Modelled from the spec: `HAL_MemWrite32` has no body in HAL.h; per the
spec it emits the 3-byte write header for the address followed by the
value in little-endian byte order.  The result is the byte stream shifted
out on the bus (chip-select bracketing is the transport's concern). -/
def HAL_MemWrite32 (address val32 : Nat) : List Nat :=
  HAL_SetWriteAddress address ++ leBytes32 val32

/-- The operation selector carried in the top two bits of the first byte
of a transaction frame. -/
def headerOpBits : List Nat → Nat
  | b0 :: _ => b0 / 0x40
  | [] => 0

/-- The 22-bit address carried in the remaining bits of a 3-byte
transaction header, most-significant byte first. -/
def headerAddress : List Nat → Nat
  | [b0, b1, b2] => b0 % 0x40 * 0x10000 + b1 * 0x100 + b2
  | _ => 0

/-! ## Helper lemmas -/

theorem step_writeCmdPointer_lt (op : HALOp) (s : HALState)
    (h : s.writeCmdPointer < FIFO_CAPACITY) :
    (step op s).writeCmdPointer < FIFO_CAPACITY := by
  cases op <;>
    simp only [step, HAL_IncCmdPointer, HAL_WriteCmdPointer, FIFO_CAPACITY] at * <;>
    omega

theorem runOps_writeCmdPointer_lt (ops : List HALOp) (s : HALState)
    (h : s.writeCmdPointer < FIFO_CAPACITY) :
    (runOps ops s).writeCmdPointer < FIFO_CAPACITY := by
  induction ops generalizing s with
  | nil => exact h
  | cons op rest ih => exact ih (step op s) (step_writeCmdPointer_lt op s h)

theorem runOps_no_commit_frame (ops : List HALOp) (s : HALState)
    (h : hasCommit ops = false) :
    (runOps ops s).regCmdWrite = s.regCmdWrite ∧
      (runOps ops s).busLog = s.busLog := by
  induction ops generalizing s with
  | nil => exact ⟨rfl, rfl⟩
  | cons op rest ih =>
    cases op with
    | incCmdPointer n => exact ih (HAL_IncCmdPointer n s) h
    | getCmdPointer => exact ih s h
    | writeCmdPointer => simp [hasCommit] at h
    | checkCmdFreeSpace r => exact ih s h
    | waitCmdFifoEmpty readSeq bound => exact ih s h

theorem waitPoll_timeout (wp : Nat) (readSeq : Nat → Nat) (fuel polls : Nat)
    (h : ∀ i, i < fuel → readSeq (polls + i) ≠ wp) :
    waitPoll wp readSeq fuel polls = (0xff, polls + fuel) := by
  induction fuel generalizing polls with
  | zero => rfl
  | succ fuel ih =>
    have h0 : readSeq polls ≠ wp := by
      have := h 0 (Nat.succ_pos fuel)
      simpa using this
    have hrest : ∀ i, i < fuel → readSeq (polls + 1 + i) ≠ wp := by
      intro i hi
      have := h (i + 1) (by omega)
      have harith : polls + (i + 1) = polls + 1 + i := by omega
      rwa [harith] at this
    have hstep : polls + 1 + fuel = polls + (fuel + 1) := by omega
    simp only [waitPoll, h0, if_false]
    rw [ih (polls + 1) hrest, hstep]

theorem waitPoll_status (wp : Nat) (readSeq : Nat → Nat) (fuel polls : Nat) :
    (waitPoll wp readSeq fuel polls).1 = 0 ∨
      (waitPoll wp readSeq fuel polls).1 = 0xff := by
  induction fuel generalizing polls with
  | zero => exact Or.inr rfl
  | succ fuel ih =>
    by_cases hm : readSeq polls = wp
    · simp [waitPoll, hm]
    · simp only [waitPoll, hm, if_false]
      exact ih (polls + 1)

/-! ## Claim theorems -/

/-- C1: for every cursor-manager state and read-register value,
`HAL_CheckCmdFreeSpace` returns exactly
`FIFO_CAPACITY - 4 - ((write - read) mod FIFO_CAPACITY)` (as an unsigned
byte count); in particular with cursor 100 and read register 0 it returns
3992. -/
theorem C1_check_free_space_formula :
    (∀ (s : HALState) (regCmdRead : Nat),
        s.writeCmdPointer < FIFO_CAPACITY → regCmdRead < FIFO_CAPACITY →
        HAL_CheckCmdFreeSpace s regCmdRead =
          ((FIFO_CAPACITY : Int) - 4 -
            ((s.writeCmdPointer : Int) - (regCmdRead : Int)) %
              (FIFO_CAPACITY : Int)).toNat) ∧
    HAL_CheckCmdFreeSpace
      { writeCmdPointer := 100, regCmdWrite := 0, busLog := [] } 0 = 3992 := by
  constructor
  · intro s regCmdRead h1 h2
    simp only [HAL_CheckCmdFreeSpace, FIFO_CAPACITY] at *
    omega
  · rfl

/-- C1 witness: the formula instantiated at cursor 200, read register 50. -/
theorem C1_check_free_space_formula_witness :
    HAL_CheckCmdFreeSpace
        { writeCmdPointer := 200, regCmdWrite := 0, busLog := [] } 50 =
      ((FIFO_CAPACITY : Int) - 4 -
        (((200 : Nat) : Int) - ((50 : Nat) : Int)) % (FIFO_CAPACITY : Int)).toNat :=
  C1_check_free_space_formula.1
    { writeCmdPointer := 200, regCmdWrite := 0, busLog := [] } 50
    (by decide) (by decide)

/-- C2: `HAL_IncCmdPointer` sets the write cursor to
`(cursor + n) mod FIFO_CAPACITY` and performs no bus access (the chip
register mirror and the bus log are untouched); in particular from cursor
4090 an advance of 10 wraps to 4. -/
theorem C2_inc_pointer_wraps :
    (∀ (s : HALState) (n : Nat),
        (HAL_IncCmdPointer n s).writeCmdPointer =
            (s.writeCmdPointer + n) % FIFO_CAPACITY ∧
          (HAL_IncCmdPointer n s).regCmdWrite = s.regCmdWrite ∧
          (HAL_IncCmdPointer n s).busLog = s.busLog) ∧
    (HAL_IncCmdPointer 10
        { writeCmdPointer := 4090, regCmdWrite := 0, busLog := [] }).writeCmdPointer
      = 4 :=
  ⟨fun _ _ => ⟨rfl, rfl, rfl⟩, rfl⟩

/-- C3: the free-space count always lies in `[0, FIFO_CAPACITY - 4]`, and
advancing by any `n` with `0 < n ≤ freeSpace` never lands the write cursor
exactly on the read-register value used in the computation. -/
theorem C3_free_space_bounds_and_no_collision :
    ∀ (s : HALState) (regCmdRead : Nat),
      s.writeCmdPointer < FIFO_CAPACITY → regCmdRead < FIFO_CAPACITY →
      HAL_CheckCmdFreeSpace s regCmdRead ≤ FIFO_CAPACITY - 4 ∧
      ∀ n : Nat, 0 < n → n ≤ HAL_CheckCmdFreeSpace s regCmdRead →
        (HAL_IncCmdPointer n s).writeCmdPointer ≠ regCmdRead := by
  intro s regCmdRead h1 h2
  constructor
  · simp only [HAL_CheckCmdFreeSpace, FIFO_CAPACITY]
    omega
  · intro n hn hle hcol
    simp only [HAL_CheckCmdFreeSpace, HAL_IncCmdPointer, FIFO_CAPACITY] at *
    omega

/-- C3 witness: instantiated at cursor 100, read register 0, advance 3992. -/
theorem C3_free_space_bounds_and_no_collision_witness :
    HAL_CheckCmdFreeSpace
        { writeCmdPointer := 100, regCmdWrite := 0, busLog := [] } 0 ≤
      FIFO_CAPACITY - 4 ∧
    (HAL_IncCmdPointer 3992
        { writeCmdPointer := 100, regCmdWrite := 0, busLog := [] }).writeCmdPointer
      ≠ 0 := by
  have h := C3_free_space_bounds_and_no_collision
    { writeCmdPointer := 100, regCmdWrite := 0, busLog := [] } 0
    (by decide) (by decide)
  exact ⟨h.1, h.2 3992 (by decide) (by decide)⟩

/-- C4: the write-cursor invariant `writeCmdPointer < FIFO_CAPACITY` holds
after initialisation and is preserved by every sequence of cursor-manager
operations with arbitrary arguments. -/
theorem C4_cursor_invariant :
    ∀ (readBack : Nat) (ops : List HALOp), readBack < FIFO_CAPACITY →
      (runOps ops (HAL_EVE_Init readBack)).writeCmdPointer < FIFO_CAPACITY := by
  intro readBack ops h
  exact runOps_writeCmdPointer_lt ops (HAL_EVE_Init readBack) h

/-- C4 witness: a concrete run mixing all five operations from a freshly
initialised state. -/
theorem C4_cursor_invariant_witness :
    (runOps
        [HALOp.incCmdPointer 9999, HALOp.getCmdPointer, HALOp.writeCmdPointer,
         HALOp.checkCmdFreeSpace 0, HALOp.waitCmdFifoEmpty (fun _ => 0) 5,
         HALOp.incCmdPointer 4090]
        (HAL_EVE_Init 0)).writeCmdPointer < FIFO_CAPACITY :=
  C4_cursor_invariant 0
    [HALOp.incCmdPointer 9999, HALOp.getCmdPointer, HALOp.writeCmdPointer,
     HALOp.checkCmdFreeSpace 0, HALOp.waitCmdFifoEmpty (fun _ => 0) 5,
     HALOp.incCmdPointer 4090]
    (by decide)

/-- C5: advancing by `n1` and then by `n2` (with `n1 + n2 < FIFO_CAPACITY`)
leaves the write cursor where a single advance by `n1 + n2` would. -/
theorem C5_inc_pointer_additive :
    ∀ (s : HALState) (n1 n2 : Nat), n1 + n2 < FIFO_CAPACITY →
      (HAL_IncCmdPointer n2 (HAL_IncCmdPointer n1 s)).writeCmdPointer =
        (HAL_IncCmdPointer (n1 + n2) s).writeCmdPointer := by
  intro s n1 n2 h
  simp only [HAL_IncCmdPointer, FIFO_CAPACITY]
  omega

/-- C5 witness: instantiated at cursor 4090 with advances 6 and 10. -/
theorem C5_inc_pointer_additive_witness :
    (HAL_IncCmdPointer 10
        (HAL_IncCmdPointer 6
          { writeCmdPointer := 4090, regCmdWrite := 0, busLog := [] })).writeCmdPointer =
      (HAL_IncCmdPointer (6 + 10)
        { writeCmdPointer := 4090, regCmdWrite := 0, busLog := [] }).writeCmdPointer :=
  C5_inc_pointer_additive
    { writeCmdPointer := 4090, regCmdWrite := 0, busLog := [] } 6 10 (by decide)

/-- C6: the drain wait returns success after exactly one poll when the
read register already matches the write pointer, and returns the 0xff
timeout status (after exactly `bound` polls) when the register never
matches within the poll bound. -/
theorem C6_wait_drained_behaviour :
    (∀ (s : HALState) (readSeq : Nat → Nat) (bound : Nat),
        0 < bound → readSeq 0 = s.writeCmdPointer →
        HAL_WaitCmdFifoEmpty s readSeq bound = (0, 1)) ∧
    (∀ (s : HALState) (readSeq : Nat → Nat) (bound : Nat),
        (∀ i, i < bound → readSeq i ≠ s.writeCmdPointer) →
        HAL_WaitCmdFifoEmpty s readSeq bound = (0xff, bound)) := by
  constructor
  · intro s readSeq bound hb hm
    cases bound with
    | zero => omega
    | succ n => simp [HAL_WaitCmdFifoEmpty, waitPoll, hm]
  · intro s readSeq bound h
    have := waitPoll_timeout s.writeCmdPointer readSeq bound 0
      (fun i hi => by simpa using h i hi)
    simpa [HAL_WaitCmdFifoEmpty] using this

/-- C6 witness: immediate success with a matching register, and timeout
after 2 polls with a register stuck at a non-matching value. -/
theorem C6_wait_drained_behaviour_witness :
    HAL_WaitCmdFifoEmpty
        { writeCmdPointer := 0, regCmdWrite := 0, busLog := [] } (fun _ => 0) 3 =
      (0, 1) ∧
    HAL_WaitCmdFifoEmpty
        { writeCmdPointer := 5, regCmdWrite := 5, busLog := [] } (fun _ => 0) 2 =
      (0xff, 2) :=
  ⟨C6_wait_drained_behaviour.1
      { writeCmdPointer := 0, regCmdWrite := 0, busLog := [] } (fun _ => 0) 3
      (by decide) rfl,
    C6_wait_drained_behaviour.2
      { writeCmdPointer := 5, regCmdWrite := 5, busLog := [] } (fun _ => 0) 2
      (fun i _ => by simp)⟩

/-- C7: `HAL_GetCmdPointer` returns the internal write cursor and changes
nothing; `HAL_WriteCmdPointer` is the only operation that writes the chip's
REG_CMD_WRITE register, writing exactly the current internal cursor; any
commit-free sequence of operations leaves the register mirror and the bus
log unchanged. -/
theorem C7_get_pure_commit_only_writes :
    (∀ s : HALState,
        HAL_GetCmdPointer s = s.writeCmdPointer ∧ step HALOp.getCmdPointer s = s) ∧
    (∀ s : HALState,
        (HAL_WriteCmdPointer s).regCmdWrite = s.writeCmdPointer ∧
          (HAL_WriteCmdPointer s).busLog =
            s.busLog ++ [(REG_CMD_WRITE_ADDR, s.writeCmdPointer)]) ∧
    (∀ (ops : List HALOp) (s : HALState), hasCommit ops = false →
        (runOps ops s).regCmdWrite = s.regCmdWrite ∧
          (runOps ops s).busLog = s.busLog) :=
  ⟨fun _ => ⟨rfl, rfl⟩, fun _ => ⟨rfl, rfl⟩, runOps_no_commit_frame⟩

/-- C7 witness: a commit-free sequence of advances and reads leaves the
register mirror and the bus log untouched. -/
theorem C7_get_pure_commit_only_writes_witness :
    (runOps [HALOp.incCmdPointer 5, HALOp.getCmdPointer, HALOp.incCmdPointer 7]
        { writeCmdPointer := 0, regCmdWrite := 3, busLog := [] }).regCmdWrite =
      HALState.regCmdWrite
        { writeCmdPointer := 0, regCmdWrite := 3, busLog := [] } ∧
    (runOps [HALOp.incCmdPointer 5, HALOp.getCmdPointer, HALOp.incCmdPointer 7]
        { writeCmdPointer := 0, regCmdWrite := 3, busLog := [] }).busLog =
      HALState.busLog { writeCmdPointer := 0, regCmdWrite := 3, busLog := [] } :=
  C7_get_pure_commit_only_writes.2.2
    [HALOp.incCmdPointer 5, HALOp.getCmdPointer, HALOp.incCmdPointer 7]
    { writeCmdPointer := 0, regCmdWrite := 3, busLog := [] } rfl

/-- C8: two consecutive commits with no intervening advance write the same
value (the current cursor) to REG_CMD_WRITE both times and leave the
internal write cursor unchanged. -/
theorem C8_commit_idempotent :
    ∀ s : HALState,
      (HAL_WriteCmdPointer (HAL_WriteCmdPointer s)).writeCmdPointer =
          s.writeCmdPointer ∧
        (HAL_WriteCmdPointer (HAL_WriteCmdPointer s)).regCmdWrite =
          s.writeCmdPointer ∧
        (HAL_WriteCmdPointer (HAL_WriteCmdPointer s)).busLog =
          s.busLog ++ [(REG_CMD_WRITE_ADDR, s.writeCmdPointer),
            (REG_CMD_WRITE_ADDR, s.writeCmdPointer)] := by
  intro s
  refine ⟨rfl, rfl, ?_⟩
  simp [HAL_WriteCmdPointer]

/-- C9: memory access headers are exactly 3 bytes; their top two bits
select the operation (write = 10, read = 00, host command = 01); the
remaining bits carry the address masked to 22 bits before framing; and the
bytes `HAL_MemWrite32` emits begin with exactly that header. -/
theorem C9_header_framing :
    ∀ address : Nat,
      (HAL_SetWriteAddress address).length = 3 ∧
      (HAL_SetReadAddress address).length = 3 ∧
      headerOpBits (HAL_SetWriteAddress address) = 2 ∧
      headerOpBits (HAL_SetReadAddress address) = 0 ∧
      (∀ cmd param : Nat, headerOpBits (HAL_HostCmdWrite cmd param) = 1) ∧
      headerAddress (HAL_SetWriteAddress address) = address % 0x400000 ∧
      headerAddress (HAL_SetReadAddress address) = address % 0x400000 ∧
      HAL_SetWriteAddress address = HAL_SetWriteAddress (address % 0x400000) ∧
      HAL_SetReadAddress address = HAL_SetReadAddress (address % 0x400000) ∧
      (∀ val32 : Nat,
        (HAL_MemWrite32 address val32).take 3 = HAL_SetWriteAddress address) := by
  intro address
  refine ⟨rfl, rfl, ?_, ?_, ?_, ?_, ?_, ?_, ?_, ?_⟩
  · simp only [HAL_SetWriteAddress, headerOpBits]
    omega
  · simp only [HAL_SetReadAddress, headerOpBits]
    omega
  · intro cmd param
    simp only [HAL_HostCmdWrite, headerOpBits]
    omega
  · simp only [HAL_SetWriteAddress, headerAddress]
    omega
  · simp only [HAL_SetReadAddress, headerAddress]
    omega
  · simp only [HAL_SetWriteAddress, List.cons.injEq, List.nil_eq, and_true]
    refine ⟨?_, ?_, ?_⟩ <;> omega
  · simp only [HAL_SetReadAddress, List.cons.injEq, List.nil_eq, and_true]
    refine ⟨?_, ?_, ?_⟩ <;> omega
  · intro val32
    simp [HAL_MemWrite32, HAL_SetWriteAddress, leBytes32]

/-- C10: the status returned by `HAL_WaitCmdFifoEmpty` is always either 0
(normal completion) or 0xff (error), for every state, register behaviour
and poll bound. -/
theorem C10_wait_status_dichotomy :
    ∀ (s : HALState) (readSeq : Nat → Nat) (bound : Nat),
      (HAL_WaitCmdFifoEmpty s readSeq bound).1 = 0 ∨
        (HAL_WaitCmdFifoEmpty s readSeq bound).1 = 0xff :=
  fun s readSeq bound => waitPoll_status s.writeCmdPointer readSeq bound 0

end EveHAL
